import Mathlib

/-!
Verification of the WSPass Run Lifecycle & Persistence Engine
(`apps/api/src/modules/runs/runStore.ts` and `jsonFileStorage.ts`).

The store is shallowly embedded: the filesystem is a record of the documents
the store reads and writes (run documents, the runs index, per-run artifact
manifests and artifact bodies), and every store operation is a pure function
from a state (plus an explicit `now` timestamp and explicit identifiers,
standing for `new Date().toISOString()` and `randomUUID()`) to a result and a
new state.  Thrown `RunNotFoundError` / `RunConflictError` /
`InvalidExecutionTransitionError` exceptions become an `Except` value; the
state component is returned in every case so that writes performed before a
throw are preserved, exactly as on disk.
-/

namespace WSPass

/-! ## Definitions: the embedded data model and store operations -/

/-- Execution statuses (`RUN_EXECUTION_STATUSES` in `@pass/shared`). -/
inductive RunExecutionStatus
  | queued
  | dispatched
  | running
  | succeeded
  | failed
deriving DecidableEq, Repr

/-- Execution backends: the values the dispatch controller passes to
`queueExecution` (`runs.controller.ts`). -/
inductive RunExecutionBackend
  | github_actions
  | local_process
deriving DecidableEq, Repr

/-- Workflow names (`WORKFLOW_NAMES`), as enumerated in the dispatch
controller. -/
inductive WorkflowName
  | phase1Planner
  | phase1ArchitectureRefinement
  | phase2RepoProvision
  | phase2Decomposition
  | phase2Implementation
deriving DecidableEq, Repr

/-- The text of a status, as interpolated into error messages. -/
def statusText : RunExecutionStatus → String
  | .queued => "queued"
  | .dispatched => "dispatched"
  | .running => "running"
  | .succeeded => "succeeded"
  | .failed => "failed"

/-- `RunExecutionSchema`: the execution sub-document of a run. -/
structure RunExecution where
  backend : RunExecutionBackend
  workflow_name : WorkflowName
  status : RunExecutionStatus
  github_run_id : Option Nat := none
  github_run_url : Option String := none
  requested_at : String
  started_at : Option String := none
  completed_at : Option String := none
  error_message : Option String := none
deriving DecidableEq, Repr

/-- `RunRecordSchema`: the lightweight run summary stored in `runs/index.json`.
The `status` and `current_step` enumerations are kept as strings. -/
structure RunRecord where
  run_id : String
  created_at : String
  status : String
  current_step : String
  last_updated_at : String
deriving DecidableEq, Repr

/-- `RunDetailSchema`: the full per-run document (`runs/<id>/run.json`).
`step_timestamps` is the JSON object as an insertion-ordered association
list; `input` is the planner input kept opaque (its content is never
inspected by the store, only its presence). the auxiliary sub-documents
(repo/decomposition/implementation/chat state) are omitted: no claim
mentions them and every operation carries them through unchanged. -/
structure RunDetail where
  run_id : String
  created_at : String
  status : String
  current_step : String
  last_updated_at : String
  step_timestamps : List (String × String)
  input : Option String := none
  execution : Option RunExecution := none
deriving DecidableEq, Repr

/-- `UpdateRunPatch`: the PATCH payload for a run. -/
structure UpdateRunPatch where
  status : Option String := none
  current_step : Option String := none
deriving DecidableEq, Repr

/-- `UpdateExecutionPatch`: the payload of `updateExecution`. -/
structure UpdateExecutionPatch where
  workflow_name : Option WorkflowName := none
  status : RunExecutionStatus
  github_run_id : Option Nat := none
  github_run_url : Option String := none
  error_message : Option String := none
deriving DecidableEq, Repr

/-- The three artifact content types accepted by `writeArtifact`. -/
inductive ContentType
  | applicationJson
  | textPlain
  | textMarkdown
deriving DecidableEq, Repr

/-- `ArtifactMetadataSchema`: one manifest entry. -/
structure ArtifactMetadata where
  name : String
  filename : String
  content_type : ContentType
  sha256 : String
  created_at : String
deriving DecidableEq, Repr

/-- The store's error taxonomy: `RunNotFoundError`, `RunConflictError`,
`InvalidExecutionTransitionError`, plus a constructor for an uncaught
filesystem read failure (`fs.readFile` in `readArtifact`). -/
inductive StoreError
  | runNotFound (runId : String)
  | conflict (message : String)
  | invalidTransition (src dst : RunExecutionStatus)
  | ioError (message : String)
deriving DecidableEq, Repr

/-- The observable condition of one JSON document on disk: missing, present
but failing `JSON.parse`/Zod validation, or valid. -/
inductive DiskFile (α : Type)
  | absent
  | corrupt
  | valid (value : α)
deriving DecidableEq, Repr

/-- The slice of the filesystem owned by the store: `runs/<id>/run.json`
documents (written only through the schemas, hence always valid once
written by the store), `runs/index.json`, per-run
`artifacts/index.json` manifests, and artifact bodies keyed by
`(runId, filename)`. -/
structure RunStoreState where
  docs : List (String × RunDetail)
  indexFile : DiskFile (List RunRecord)
  manifests : List (String × DiskFile (List ArtifactMetadata))
  bodies : List ((String × String) × String)
deriving DecidableEq, Repr

/-- A fresh storage root: nothing written yet. -/
def emptyState : RunStoreState :=
  { docs := [], indexFile := .absent, manifests := [], bodies := [] }

/-- Look up the value stored under a key. -/
def assocFind {κ α : Type} [DecidableEq κ] (l : List (κ × α)) (k : κ) : Option α :=
  (l.find? fun p => decide (p.1 = k)).map (·.2)

/-- Overwrite (or create) the value stored under a key. -/
def assocSet {κ α : Type} [DecidableEq κ] (l : List (κ × α)) (k : κ) (v : α) :
    List (κ × α) :=
  (k, v) :: l.filter fun p => decide (p.1 ≠ k)

/-- The shared comparator: `a` may precede `b` iff `a` is strictly newer, or
the timestamps tie and `a`'s secondary key is not after `b`'s. -/
def newestFirstLe {α : Type} (created key : α → String) (a b : α) : Bool :=
  if created a ≠ created b then decide (created b < created a)
  else !decide (key b < key a)

/-- The comparator of `sortRunsNewestFirst`: newest `created_at` first,
`run_id` ascending as tie-break. -/
def runLe : RunRecord → RunRecord → Bool :=
  newestFirstLe RunRecord.created_at RunRecord.run_id

/-- `sortRunsNewestFirst` from `jsonFileStorage.ts`. -/
def sortRunsNewestFirst (runs : List RunRecord) : List RunRecord :=
  runs.mergeSort runLe

/-- The inline comparator of the manifest sort in `writeArtifact`: newest
`created_at` first, `name` ascending as tie-break. -/
def artifactLe : ArtifactMetadata → ArtifactMetadata → Bool :=
  newestFirstLe ArtifactMetadata.created_at ArtifactMetadata.name

/-- The manifest sort performed by `writeArtifact`. -/
def sortArtifactsNewestFirst (arts : List ArtifactMetadata) : List ArtifactMetadata :=
  arts.mergeSort artifactLe

/-- The `allowed` record of `assertCanMoveExecution`. -/
def allowedTargets : RunExecutionStatus → List RunExecutionStatus
  | .queued => [.dispatched, .failed]
  | .dispatched => [.running, .failed]
  | .running => [.succeeded, .failed]
  | .succeeded => []
  | .failed => []

/-- `assertCanMoveExecution` passes iff the target is listed for the source. -/
def allowedTransition (src dst : RunExecutionStatus) : Bool :=
  decide (dst ∈ allowedTargets src)

/-- The `["queued", "dispatched", "running"].includes(status)` test of
`queueExecution`. -/
def isActiveStatus (st : RunExecutionStatus) : Bool :=
  decide (st ∈ [RunExecutionStatus.queued, .dispatched, .running])

/-- `toSafeFilename`: trim, lower-case, and collapse every maximal run of
characters outside `[a-z0-9._-]` into a single underscore. -/
def isSafeFilenameChar (c : Char) : Bool :=
  (('a' ≤ c && c ≤ 'z') || ('0' ≤ c && c ≤ '9') || c = '.' || c = '_' || c = '-')

/-- One step of the run-collapsing scan: the flag records whether the previous
character was part of an unsafe run (so the run contributes one `_`). -/
def safeFilenameStep (acc : String × Bool) (c : Char) : String × Bool :=
  if isSafeFilenameChar c then (acc.1.push c, false)
  else if acc.2 then acc
  else (acc.1.push '_', true)

/-- `toSafeFilename` from `runStore.ts`. -/
def toSafeFilename (name : String) : String :=
  ((name.trim.toLower).toList.foldl safeFilenameStep ("", false)).1

/-- Write-once insertion into `step_timestamps` (`next[step] ??= now`): keys
are only added, never overwritten. -/
def stepTimestampsSetIfAbsent (l : List (String × String)) (k v : String) :
    List (String × String) :=
  match assocFind l k with
  | some _ => l
  | none => l ++ [(k, v)]

/-- `toRunRecord`: project a run document to its index summary. -/
def toRunRecord (run : RunDetail) : RunRecord :=
  { run_id := run.run_id
    created_at := run.created_at
    status := run.status
    current_step := run.current_step
    last_updated_at := run.last_updated_at }

/-- `readOrInitIndex`: return the valid index, or overwrite a missing or
invalid `runs/index.json` with a fresh empty one. -/
def readOrInitIndex (s : RunStoreState) : List RunRecord × RunStoreState :=
  match s.indexFile with
  | .valid idx => (idx, s)
  | _ => ([], { s with indexFile := .valid [] })

/-- The artifact manifest file of one run (an unknown run has no file). -/
def manifestFile (s : RunStoreState) (runId : String) :
    DiskFile (List ArtifactMetadata) :=
  (assocFind s.manifests runId).getD .absent

/-- `readOrInitArtifactsIndex`: return the valid manifest, or overwrite a
missing or invalid `artifacts/index.json` with a fresh empty one. -/
def readOrInitArtifactsIndex (s : RunStoreState) (runId : String) :
    List ArtifactMetadata × RunStoreState :=
  match manifestFile s runId with
  | .valid arts => (arts, s)
  | _ => ([], { s with manifests := assocSet s.manifests runId (.valid []) })

/-- `getRun`: load `runs/<id>/run.json`; any failure becomes
`RunNotFoundError`.  A pure read. -/
def getRun (s : RunStoreState) (runId : String) : Except StoreError RunDetail :=
  match assocFind s.docs runId with
  | some run => .ok run
  | none => .error (.runNotFound runId)

/-- `persistRun`: stamp `last_updated_at`, write the document, then rebuild
the index entry for that run (remove-then-insert, re-sorted). -/
def persistRun (s : RunStoreState) (run : RunDetail) (now : String) :
    RunDetail × RunStoreState :=
  let validated := { run with last_updated_at := now }
  let s₁ := { s with docs := assocSet s.docs validated.run_id validated }
  let read := readOrInitIndex s₁
  let nextRuns := sortRunsNewestFirst
    (read.1.filter (fun r => decide (r.run_id ≠ validated.run_id)) ++ [toRunRecord validated])
  (validated, { read.2 with indexFile := .valid nextRuns })

/-- The initial run document built by `createRun`. -/
def initialRun (runId input now : String) : RunDetail :=
  { run_id := runId
    created_at := now
    status := "created"
    current_step := "created"
    last_updated_at := now
    step_timestamps := [("created", now)]
    input := some input
    execution := none }

/-- `createRun`: write the initial document, then upsert its summary into the
index.  `runId` stands for the generated UUID and `now` for the clock. -/
def createRun (s : RunStoreState) (runId : String) (input : String) (now : String) :
    RunDetail × RunStoreState :=
  let run : RunDetail := initialRun runId input now
  let s₁ := { s with docs := assocSet s.docs runId run }
  let read := readOrInitIndex s₁
  let nextRuns := sortRunsNewestFirst
    (read.1.filter (fun r => decide (r.run_id ≠ runId)) ++ [toRunRecord run])
  (run, { read.2 with indexFile := .valid nextRuns })

/-- `listRuns`: read (or initialize) the index and return it newest-first. -/
def listRuns (s : RunStoreState) : List RunRecord × RunStoreState :=
  let read := readOrInitIndex s
  (sortRunsNewestFirst read.1, read.2)

/-- `nextStepTimestamps`: copy the existing map, filling in the new step only
if it has no entry yet. -/
def nextStepTimestamps (existing : RunDetail) (step : Option String) (now : String) :
    List (String × String) :=
  match step with
  | none => existing.step_timestamps
  | some st => stepTimestampsSetIfAbsent existing.step_timestamps st now

/-- The merge `{...existing, ...patch, step_timestamps: ...}` of `updateRun`. -/
def applyRunPatch (existing : RunDetail) (patch : UpdateRunPatch) (now : String) :
    RunDetail :=
  { existing with
    status := patch.status.getD existing.status
    current_step := patch.current_step.getD existing.current_step
    step_timestamps := nextStepTimestamps existing patch.current_step now }

/-- `updateRun`: load, merge the status/step patch, persist. -/
def updateRun (s : RunStoreState) (runId : String) (patch : UpdateRunPatch)
    (now : String) : Except StoreError RunDetail × RunStoreState :=
  match getRun s runId with
  | .error e => (.error e, s)
  | .ok existing =>
    let rs := persistRun s (applyRunPatch existing patch now) now
    (.ok rs.1, rs.2)

/-- Modelled from the spec: the deployed `RunStore.queueExecution` takes the
execution backend as a third argument chosen by its caller (the dispatch
controller in `runs.controller.ts` passes `"local_process"` or
`"github_actions"`), but that revision of `runStore.ts` is not among the
sources; the body below follows the in-source two-argument `queueExecution`
verbatim, with the caller-chosen `backend` in place of its hard-coded
backend value. -/
def queueExecution (s : RunStoreState) (runId : String) (workflowName : WorkflowName)
    (backend : RunExecutionBackend) (now : String) :
    Except StoreError RunDetail × RunStoreState :=
  match getRun s runId with
  | .error e => (.error e, s)
  | .ok existing =>
    if existing.input.isNone then
      (.error (.conflict "Cannot dispatch a run without persisted planner input."), s)
    else
      match existing.execution with
      | some e =>
        if isActiveStatus e.status then
          (.error (.conflict ("Run execution is already active: " ++ statusText e.status)), s)
        else
          let rs := persistRun s
            { existing with
              execution := some
                { backend := backend
                  workflow_name := workflowName
                  status := .queued
                  github_run_id := none
                  github_run_url := none
                  requested_at := now
                  started_at := none
                  completed_at := none
                  error_message := none } } now
          (.ok rs.1, rs.2)
      | none =>
        let rs := persistRun s
          { existing with
            execution := some
              { backend := backend
                workflow_name := workflowName
                status := .queued
                github_run_id := none
                github_run_url := none
                requested_at := now
                started_at := none
                completed_at := none
                error_message := none } } now
        (.ok rs.1, rs.2)

/-- The `nextExecution` record built by `updateExecution`, including the
`delete nextExecution.error_message` step. -/
def applyExecutionPatch (current : RunExecution) (patch : UpdateExecutionPatch)
    (now : String) : RunExecution :=
  let merged : RunExecution :=
    { backend := current.backend
      workflow_name := patch.workflow_name.getD current.workflow_name
      status := patch.status
      github_run_id := match patch.github_run_id with
        | some v => some v
        | none => current.github_run_id
      github_run_url := match patch.github_run_url with
        | some v => some v
        | none => current.github_run_url
      requested_at := current.requested_at
      started_at :=
        if patch.status = .running then
          match current.started_at with
          | some t => some t
          | none => some now
        else current.started_at
      completed_at :=
        match patch.status with
        | .succeeded => some now
        | .failed => some now
        | _ => current.completed_at
      error_message := match patch.error_message with
        | some v => some v
        | none => current.error_message }
  if patch.status ≠ .failed then { merged with error_message := none } else merged

/-- `updateExecution`: require an execution, check the transition table, merge
the patch with the `started_at`/`completed_at`/`error_message` rules, and
persist. -/
def updateExecution (s : RunStoreState) (runId : String)
    (patch : UpdateExecutionPatch) (now : String) :
    Except StoreError RunDetail × RunStoreState :=
  match getRun s runId with
  | .error e => (.error e, s)
  | .ok existing =>
    match existing.execution with
    | none => (.error (.conflict "Execution has not been created for this run."), s)
    | some current =>
      if allowedTransition current.status patch.status then
        let rs := persistRun s
          { existing with execution := some (applyExecutionPatch current patch now) } now
        (.ok rs.1, rs.2)
      else
        (.error (.invalidTransition current.status patch.status), s)

/-- `markExecutionDispatched`: shorthand for a dispatch status update. -/
def markExecutionDispatched (s : RunStoreState) (runId : String) (now : String) :
    Except StoreError RunDetail × RunStoreState :=
  updateExecution s runId { status := .dispatched } now

/-- `failExecution`: require an existing, non-terminal execution, then mark it
failed with the message through `updateExecution`. -/
def failExecution (s : RunStoreState) (runId : String) (errorMessage : String)
    (now : String) : Except StoreError RunDetail × RunStoreState :=
  match getRun s runId with
  | .error e => (.error e, s)
  | .ok existing =>
    match existing.execution with
    | none => (.error (.conflict "Cannot fail execution before it exists."), s)
    | some e =>
      if e.status = .succeeded ∨ e.status = .failed then
        (.error (.conflict ("Execution is already terminal: " ++ statusText e.status)), s)
      else
        updateExecution s runId { status := .failed, error_message := some errorMessage } now

/-- The serialized artifact text: JSON payloads go through
`JSON.stringify(payload, null, 2) + "\n"` (the stringifier is a parameter of
the model), text/markdown payloads are written as-is. -/
def artifactText (jsonStringify : String → String) (contentType : ContentType)
    (payload : String) : String :=
  match contentType with
  | .applicationJson => jsonStringify payload ++ "\n"
  | .textPlain => payload
  | .textMarkdown => payload

/-- The on-disk filename chosen for an artifact. -/
def artifactFilename (name : String) (contentType : ContentType) : String :=
  let safe := if toSafeFilename name = "" then "artifact" else toSafeFilename name
  match contentType with
  | .applicationJson => safe ++ ".json"
  | .textPlain => safe ++ ".txt"
  | .textMarkdown => safe ++ ".md"

/-- `writeArtifact`: require the run, write the body atomically, then upsert
the metadata entry by `name` into the manifest and sort it.  `sha256Hex` and
`jsonStringify` are parameters of the model (the digest and
`JSON.stringify(·, null, 2)`). -/
def writeArtifact (sha256Hex jsonStringify : String → String) (s : RunStoreState)
    (runId : String) (name : String) (payload : String) (contentType : ContentType)
    (now : String) : Except StoreError ArtifactMetadata × RunStoreState :=
  match getRun s runId with
  | .error e => (.error e, s)
  | .ok _ =>
    let filename := artifactFilename name contentType
    let text := artifactText jsonStringify contentType payload
    let sha := sha256Hex text
    let s₁ := { s with bodies := assocSet s.bodies (runId, filename) text }
    let meta : ArtifactMetadata :=
      { name := name
        filename := filename
        content_type := contentType
        sha256 := sha
        created_at := now }
    let read := readOrInitArtifactsIndex s₁ runId
    let nextArtifacts := sortArtifactsNewestFirst
      (read.1.filter (fun a => decide (a.name ≠ name)) ++ [meta])
    (.ok meta, { read.2 with manifests := assocSet read.2.manifests runId (.valid nextArtifacts) })

/-- `listArtifacts`: require the run, then return the manifest entries. -/
def listArtifacts (s : RunStoreState) (runId : String) :
    Except StoreError (List ArtifactMetadata) × RunStoreState :=
  match getRun s runId with
  | .error e => (.error e, s)
  | .ok _ =>
    let read := readOrInitArtifactsIndex s runId
    (.ok read.1, read.2)

/-- `readArtifact`: look the entry up by name (else `Conflict`), then read the
body (raw text; `JSON.parse` of a JSON body is left opaque). -/
def readArtifact (s : RunStoreState) (runId : String) (name : String) :
    Except StoreError (ArtifactMetadata × String) × RunStoreState :=
  match getRun s runId with
  | .error e => (.error e, s)
  | .ok _ =>
    let read := readOrInitArtifactsIndex s runId
    match read.1.find? (fun candidate => decide (candidate.name = name)) with
    | none =>
      (.error (.conflict ("Artifact not found for run " ++ runId ++ ": " ++ name)), read.2)
    | some artifact =>
      match assocFind read.2.bodies (runId, artifact.filename) with
      | none => (.error (.ioError ("ENOENT: " ++ artifact.filename)), read.2)
      | some raw => (.ok (artifact, raw), read.2)

/-- One file write issued by the run-mutation path: either the per-run
document or the runs index. -/
inductive WriteEvent
  | runDoc (runId : String) (run : RunDetail)
  | runsIndex (runs : List RunRecord)
deriving DecidableEq, Repr

/-- Apply one write to the filesystem state. -/
def applyWrite (s : RunStoreState) : WriteEvent → RunStoreState
  | .runDoc runId run => { s with docs := assocSet s.docs runId run }
  | .runsIndex runs => { s with indexFile := .valid runs }

/-- Whether a write touches the runs index (rather than a run document). -/
def isIndexWrite : WriteEvent → Prop
  | .runsIndex _ => True
  | .runDoc _ _ => False

/-- The writes `persistRun` issues, in program order: the run document first,
then the index (preceded by the healing write of an empty index when the
stored one is missing or invalid). -/
def persistRunTrace (s : RunStoreState) (run : RunDetail) (now : String) :
    List WriteEvent :=
  let validated := { run with last_updated_at := now }
  let healing : List WriteEvent := match s.indexFile with
    | .valid _ => []
    | _ => [.runsIndex []]
  let idx := match s.indexFile with
    | .valid idx => idx
    | _ => []
  .runDoc validated.run_id validated ::
    (healing ++ [.runsIndex (sortRunsNewestFirst
      (idx.filter (fun r => decide (r.run_id ≠ validated.run_id)) ++
        [toRunRecord validated]))])

/-- The writes `createRun` issues, in program order. -/
def createRunTrace (s : RunStoreState) (runId input now : String) :
    List WriteEvent :=
  let run : RunDetail := initialRun runId input now
  let healing : List WriteEvent := match s.indexFile with
    | .valid _ => []
    | _ => [.runsIndex []]
  let idx := match s.indexFile with
    | .valid idx => idx
    | _ => []
  .runDoc runId run ::
    (healing ++ [.runsIndex (sortRunsNewestFirst
      (idx.filter (fun r => decide (r.run_id ≠ runId)) ++ [toRunRecord run]))])

/-- The writes `updateRun` issues (none when the run is missing). -/
def updateRunTrace (s : RunStoreState) (runId : String) (patch : UpdateRunPatch)
    (now : String) : List WriteEvent :=
  match getRun s runId with
  | .error _ => []
  | .ok existing => persistRunTrace s (applyRunPatch existing patch now) now

/-- A sequence of the mutations C2 quantifies over. -/
inductive StoreCmd
  | create (runId input now : String)
  | update (runId : String) (patch : UpdateRunPatch) (now : String)

/-- Execute one command on the state (a failed call leaves the state as the
operation left it, which for a failed `updateRun` is unchanged). -/
def execCmd (s : RunStoreState) : StoreCmd → RunStoreState
  | .create runId input now => (createRun s runId input now).2
  | .update runId patch now => (updateRun s runId patch now).2

/-- Execute a call sequence from a state. -/
def execCmds (s : RunStoreState) (cmds : List StoreCmd) : RunStoreState :=
  cmds.foldl execCmd s

/-- The run summaries the index currently lists (none when the index file is
missing or invalid). -/
def indexRuns (s : RunStoreState) : List RunRecord :=
  match s.indexFile with
  | .valid l => l
  | _ => []

/-- Index consistency: every listed run id has a readable run document whose
summary projection equals the listed entry. -/
def indexConsistent (s : RunStoreState) : Prop :=
  ∀ r ∈ indexRuns s, ∃ d, assocFind s.docs r.run_id = some d ∧ toRunRecord d = r

/-- The six legal transitions, as enumerated by the specification. -/
def claimLegalPairs : List (RunExecutionStatus × RunExecutionStatus) :=
  [(.queued, .dispatched), (.queued, .failed),
   (.dispatched, .running), (.dispatched, .failed),
   (.running, .succeeded), (.running, .failed)]

/-- A sample terminal execution. -/
def sampleExec : RunExecution :=
  { backend := .github_actions
    workflow_name := .phase1Planner
    status := .succeeded
    requested_at := "2026-01-01T00:00:00.000Z" }

/-- A sample run document carrying input and the sample execution. -/
def sampleRun : RunDetail :=
  { run_id := "r1"
    created_at := "2026-01-01T00:00:00.000Z"
    status := "created"
    current_step := "created"
    last_updated_at := "2026-01-01T00:00:00.000Z"
    step_timestamps := [("created", "2026-01-01T00:00:00.000Z")]
    input := some "prd"
    execution := some sampleExec }

/-- A sample state holding `sampleRun` consistently. -/
def sampleState : RunStoreState :=
  { docs := [("r1", sampleRun)]
    indexFile := .valid [toRunRecord sampleRun]
    manifests := []
    bodies := [] }

/-- A sample running execution with `started_at` already set. -/
def sampleExecRunning : RunExecution :=
  { backend := .local_process
    workflow_name := .phase1Planner
    status := .running
    requested_at := "2026-01-01T00:00:00.000Z"
    started_at := some "2026-01-01T00:01:00.000Z" }

/-- A sample run document with planner input and no execution yet. -/
def sampleRunNoExec : RunDetail :=
  { run_id := "r2"
    created_at := "2026-01-01T00:00:00.000Z"
    status := "created"
    current_step := "created"
    last_updated_at := "2026-01-01T00:00:00.000Z"
    step_timestamps := [("created", "2026-01-01T00:00:00.000Z")]
    input := some "prd"
    execution := none }

/-- A sample run document with a running execution. -/
def sampleRunRunning : RunDetail :=
  { run_id := "r3"
    created_at := "2026-01-01T00:00:00.000Z"
    status := "created"
    current_step := "created"
    last_updated_at := "2026-01-01T00:00:00.000Z"
    step_timestamps := [("created", "2026-01-01T00:00:00.000Z")]
    input := some "prd"
    execution := some sampleExecRunning }

/-- A sample state holding both documents. -/
def sampleState2 : RunStoreState :=
  { docs := [("r2", sampleRunNoExec), ("r3", sampleRunRunning)]
    indexFile := .valid []
    manifests := []
    bodies := [] }

/-- A sample run without planner input. -/
def sampleRunNoInput : RunDetail :=
  { run_id := "r4"
    created_at := "2026-01-01T00:00:00.000Z"
    status := "created"
    current_step := "created"
    last_updated_at := "2026-01-01T00:00:00.000Z"
    step_timestamps := [("created", "2026-01-01T00:00:00.000Z")]
    input := none
    execution := none }

/-- A sample state for the queueing scenarios: a run without input, a run
with an active execution, a run with no execution, a run with a terminal
execution. -/
def sampleState3 : RunStoreState :=
  { docs := [("r4", sampleRunNoInput), ("r3", sampleRunRunning),
             ("r2", sampleRunNoExec), ("r1", sampleRun)]
    indexFile := .valid []
    manifests := []
    bodies := [] }

/-- The run document stored (and returned) by a successful `updateRun`. -/
def runAfter (run : RunDetail) (patch : UpdateRunPatch) (now : String) : RunDetail :=
  { applyRunPatch run patch now with last_updated_at := now }

/-- The entries of a run's manifest (empty when missing or invalid). -/
def manifestEntries (s : RunStoreState) (runId : String) : List ArtifactMetadata :=
  match manifestFile s runId with
  | .valid l => l
  | _ => []

/-- The metadata entry produced by `writeArtifact`. -/
def artifactMeta (sha256Hex jsonStringify : String → String) (name payload : String)
    (ct : ContentType) (now : String) : ArtifactMetadata :=
  { name := name
    filename := artifactFilename name ct
    content_type := ct
    sha256 := sha256Hex (artifactText jsonStringify ct payload)
    created_at := now }

/-- Two sample run summaries with distinct ids and equal timestamps. -/
def sampleRecordA : RunRecord :=
  { run_id := "a", created_at := "2026-01-01T00:00:00.000Z", status := "created",
    current_step := "created", last_updated_at := "2026-01-01T00:00:00.000Z" }

/-- Second sample run summary. -/
def sampleRecordB : RunRecord :=
  { run_id := "b", created_at := "2026-01-01T00:00:00.000Z", status := "created",
    current_step := "created", last_updated_at := "2026-01-01T00:00:00.000Z" }

/-- A state whose runs index and artifact manifest both exist but are
invalid. -/
def corruptState : RunStoreState :=
  { docs := [("r2", sampleRunNoExec)]
    indexFile := .corrupt
    manifests := [("r2", .corrupt)]
    bodies := [] }

/-- The two files `atomicWriteFile` touches. -/
structure AtomicFs where
  dest : Option String
  tmp : Option String
deriving DecidableEq, Repr

/-- Every intermediate state of one `atomicWriteFile` call, in order:
initial; after the temporary file is written; then, when the first rename
fails with an `EEXIST`-class error, after that failed rename, after the
destination is unlinked, and after the retried rename; otherwise just after
the (successful) rename. -/
def atomicWriteTrace (s : AtomicFs) (contents : String) (renameFails : Bool) :
    List AtomicFs :=
  let written : AtomicFs := { s with tmp := some contents }
  if renameFails then
    [s, written, written,
      { dest := none, tmp := some contents },
      { dest := some contents, tmp := none }]
  else
    [s, written, { dest := some contents, tmp := none }]

/-! ## Theorems -/

theorem assocFind_set_self {κ α : Type} [DecidableEq κ] (l : List (κ × α)) (k : κ) (v : α) :
    assocFind (assocSet l k v) k = some v := by
  simp [assocFind, assocSet, List.find?]

theorem assocFind_set_ne {κ α : Type} [DecidableEq κ] (l : List (κ × α)) (k k' : κ) (v : α)
    (h : k' ≠ k) : assocFind (assocSet l k v) k' = assocFind l k' := by
  have hk : ¬ (k = k') := fun e => h e.symm
  simp only [assocFind, assocSet]
  rw [List.find?_cons_of_neg _ (by simpa using hk)]
  congr 1
  induction l with
  | nil => rfl
  | cons p t ih =>
    rw [List.filter_cons]
    by_cases hp : p.1 = k
    · have hp' : ¬ (p.1 = k') := by rw [hp]; exact hk
      rw [if_neg (by simpa using hp)]
      rw [List.find?_cons_of_neg _ (by simpa using hp')]
      exact ih
    · rw [if_pos (by simpa using hp)]
      by_cases hq : p.1 = k'
      · rw [List.find?_cons_of_pos _ (by simpa using hq),
          List.find?_cons_of_pos _ (by simpa using hq)]
      · rw [List.find?_cons_of_neg _ (by simpa using hq),
          List.find?_cons_of_neg _ (by simpa using hq)]
        exact ih

theorem assocFind_mem {κ α : Type} [DecidableEq κ] {l : List (κ × α)} {k : κ} {v : α}
    (h : assocFind l k = some v) : (k, v) ∈ l := by
  simp only [assocFind, Option.map_eq_some'] at h
  obtain ⟨p, hp, hv⟩ := h
  have hk := List.find?_some hp
  have hmem := List.mem_of_find?_eq_some hp
  simp only [decide_eq_true_eq] at hk
  have : p = (k, v) := by
    cases p
    simp_all
  rwa [this] at hmem

theorem newestFirstLe_iff {α : Type} (created key : α → String) (a b : α) :
    newestFirstLe created key a b = true ↔
      created b < created a ∨ (created a = created b ∧ ¬ key b < key a) := by
  unfold newestFirstLe
  by_cases h : created a = created b
  · simp [h, lt_self_iff_false]
  · simp [h]

theorem newestFirstLe_total {α : Type} (created key : α → String) (a b : α) :
    newestFirstLe created key a b = true ∨ newestFirstLe created key b a = true := by
  rw [newestFirstLe_iff, newestFirstLe_iff]
  rcases lt_trichotomy (created a) (created b) with h | h | h
  · right; left; exact h
  · rcases lt_or_ge (key b) (key a) with hk | hk
    · right; right; exact ⟨h.symm, not_lt.mpr hk.le⟩
    · left; right; exact ⟨h, not_lt.mpr hk⟩
  · left; left; exact h

theorem newestFirstLe_trans {α : Type} (created key : α → String) (a b c : α)
    (h₁ : newestFirstLe created key a b = true)
    (h₂ : newestFirstLe created key b c = true) :
    newestFirstLe created key a c = true := by
  rw [newestFirstLe_iff] at h₁ h₂ ⊢
  rcases h₁ with hab | ⟨hab, hk⟩
  · rcases h₂ with hbc | ⟨hbc, _⟩
    · left; exact lt_trans hbc hab
    · left; exact hbc ▸ hab
  · rcases h₂ with hbc | ⟨hbc, hk'⟩
    · left; rw [hab]; exact hbc
    · right
      exact ⟨hab.trans hbc, not_lt.mpr (le_trans (not_lt.mp hk) (not_lt.mp hk'))⟩

theorem newestFirstLe_keys {α : Type} (created key : α → String) (a b : α)
    (h₁ : newestFirstLe created key a b = true)
    (h₂ : newestFirstLe created key b a = true) :
    created a = created b ∧ key a = key b := by
  rw [newestFirstLe_iff] at h₁ h₂
  rcases h₁ with h | ⟨he, hk⟩
  · rcases h₂ with h' | ⟨he', _⟩
    · exact absurd h' (lt_asymm h)
    · exact absurd h (by simp [he'])
  · rcases h₂ with h' | ⟨he', hk'⟩
    · exact absurd h' (by simp [he])
    · exact ⟨he, le_antisymm (not_lt.mp hk) (not_lt.mp hk')⟩

/-- A sorted list is determined by its multiset of elements whenever the
ordering cannot hold both ways between two distinct members. -/
theorem eq_of_perm_of_sortedLe {α : Type} (le : α → α → Bool) :
    ∀ {l₁ l₂ : List α}, l₁.Perm l₂ →
      l₁.Pairwise (fun a b => le a b = true) →
      l₂.Pairwise (fun a b => le a b = true) →
      (∀ a ∈ l₁, ∀ b ∈ l₁, le a b = true → le b a = true → a = b) →
      l₁ = l₂
  | [], _, hp, _, _, _ => hp.nil_eq
  | a :: t, [], hp, _, _, _ => by simpa using List.perm_nil.mp hp
  | a :: t, b :: t₂, hp, hs₁, hs₂, hanti => by
    have hab : a = b := by
      by_cases h : a = b
      · exact h
      · have haMem : a ∈ b :: t₂ := hp.mem_iff.mp (List.mem_cons_self a t)
        have hbMem : b ∈ a :: t := hp.symm.mem_iff.mp (List.mem_cons_self b t₂)
        have ha2 : a ∈ t₂ := by
          rcases List.mem_cons.mp haMem with h' | h'
          · exact absurd h' h
          · exact h'
        have hb1 : b ∈ t := by
          rcases List.mem_cons.mp hbMem with h' | h'
          · exact absurd h'.symm h
          · exact h'
        have h1 : le a b = true := (List.pairwise_cons.mp hs₁).1 b hb1
        have h2 : le b a = true := (List.pairwise_cons.mp hs₂).1 a ha2
        exact hanti a (List.mem_cons_self a t) b (List.mem_cons_of_mem a hb1) h1 h2
    subst hab
    have ht : t.Perm t₂ := hp.cons_inv
    have htail : t = t₂ :=
      eq_of_perm_of_sortedLe le ht (List.pairwise_cons.mp hs₁).2
        (List.pairwise_cons.mp hs₂).2
        (fun x hx y hy => hanti x (List.mem_cons_of_mem a hx) y (List.mem_cons_of_mem a hy))
    rw [htail]

theorem sortRunsNewestFirst_perm (l : List RunRecord) :
    (sortRunsNewestFirst l).Perm l :=
  List.mergeSort_perm l runLe

theorem mem_sortRunsNewestFirst {r : RunRecord} {l : List RunRecord} :
    r ∈ sortRunsNewestFirst l ↔ r ∈ l :=
  (sortRunsNewestFirst_perm l).mem_iff

theorem sortRunsNewestFirst_sorted (l : List RunRecord) :
    (sortRunsNewestFirst l).Pairwise (fun a b => runLe a b = true) := by
  exact @List.sorted_mergeSort RunRecord runLe
    (fun a b c hab hbc => newestFirstLe_trans _ _ a b c hab hbc)
    (fun a b => by
      rcases newestFirstLe_total RunRecord.created_at RunRecord.run_id a b with h | h <;>
        simp [runLe, h])
    l

theorem sortArtifactsNewestFirst_perm (l : List ArtifactMetadata) :
    (sortArtifactsNewestFirst l).Perm l :=
  List.mergeSort_perm l artifactLe

theorem mem_sortArtifactsNewestFirst {a : ArtifactMetadata} {l : List ArtifactMetadata} :
    a ∈ sortArtifactsNewestFirst l ↔ a ∈ l :=
  (sortArtifactsNewestFirst_perm l).mem_iff

theorem sortArtifactsNewestFirst_sorted (l : List ArtifactMetadata) :
    (sortArtifactsNewestFirst l).Pairwise (fun a b => artifactLe a b = true) := by
  exact @List.sorted_mergeSort ArtifactMetadata artifactLe
    (fun a b c hab hbc => newestFirstLe_trans _ _ a b c hab hbc)
    (fun a b => by
      rcases newestFirstLe_total ArtifactMetadata.created_at ArtifactMetadata.name a b with h | h <;>
        simp [artifactLe, h])
    l

theorem persistRun_eq_foldl (s : RunStoreState) (run : RunDetail) (now : String) :
    (persistRun s run now).2 = (persistRunTrace s run now).foldl applyWrite s := by
  cases h : s.indexFile <;>
    simp [persistRun, persistRunTrace, readOrInitIndex, applyWrite, h]

theorem createRun_eq_foldl (s : RunStoreState) (runId input now : String) :
    (createRun s runId input now).2 =
      (createRunTrace s runId input now).foldl applyWrite s := by
  cases h : s.indexFile <;>
    simp [createRun, createRunTrace, readOrInitIndex, applyWrite, h]

theorem updateRun_eq_foldl (s : RunStoreState) (runId : String)
    (patch : UpdateRunPatch) (now : String) :
    (updateRun s runId patch now).2 =
      (updateRunTrace s runId patch now).foldl applyWrite s := by
  unfold updateRun updateRunTrace
  cases getRun s runId with
  | error e => rfl
  | ok existing => simpa using persistRun_eq_foldl s (applyRunPatch existing patch now) now

theorem persistRunTrace_docFirst (s : RunStoreState) (run : RunDetail)
    (now : String) :
    (persistRunTrace s run now).head? =
      some (.runDoc run.run_id { run with last_updated_at := now }) ∧
    ∀ e ∈ (persistRunTrace s run now).tail, isIndexWrite e := by
  cases h : s.indexFile <;>
    refine ⟨by simp [persistRunTrace, h], ?_⟩ <;>
    · intro e he
      simp only [persistRunTrace, h, List.tail_cons, List.mem_append,
        List.mem_singleton, List.mem_cons, List.not_mem_nil, or_false,
        false_or] at he
      rcases he with rfl | rfl <;> trivial

theorem createRunTrace_docFirst (s : RunStoreState) (runId input now : String) :
    (createRunTrace s runId input now).head? =
      some (.runDoc runId (initialRun runId input now)) ∧
    ∀ e ∈ (createRunTrace s runId input now).tail, isIndexWrite e := by
  cases h : s.indexFile <;>
    refine ⟨by simp [createRunTrace, h], ?_⟩ <;>
    · intro e he
      simp only [createRunTrace, h, List.tail_cons, List.mem_append,
        List.mem_singleton, List.mem_cons, List.not_mem_nil, or_false,
        false_or] at he
      rcases he with rfl | rfl <;> trivial

theorem indexConsistent_empty : indexConsistent emptyState := by
  intro r hr
  simp [emptyState, indexRuns] at hr

theorem persistRun_spec (s : RunStoreState) (run : RunDetail) (now : String) :
    (persistRun s run now).1 = { run with last_updated_at := now } ∧
    (persistRun s run now).2.docs =
      assocSet s.docs run.run_id { run with last_updated_at := now } ∧
    (persistRun s run now).2.indexFile = .valid (sortRunsNewestFirst
      ((indexRuns s).filter (fun r => decide (r.run_id ≠ run.run_id)) ++
        [toRunRecord { run with last_updated_at := now }])) ∧
    (persistRun s run now).2.manifests = s.manifests ∧
    (persistRun s run now).2.bodies = s.bodies := by
  cases h : s.indexFile <;>
    simp [persistRun, readOrInitIndex, indexRuns, h]

theorem createRun_spec (s : RunStoreState) (runId input now : String) :
    (createRun s runId input now).1.run_id = runId ∧
    (createRun s runId input now).2.docs =
      assocSet s.docs runId (createRun s runId input now).1 ∧
    (createRun s runId input now).2.indexFile = .valid (sortRunsNewestFirst
      ((indexRuns s).filter (fun r => decide (r.run_id ≠ runId)) ++
        [toRunRecord (createRun s runId input now).1])) := by
  cases h : s.indexFile <;>
    simp [createRun, readOrInitIndex, indexRuns, initialRun, h]

/-- The single choke point preserves index consistency: after writing the
document and rebuilding its index entry, every listed run is readable and
matches. -/
theorem indexConsistent_persistRun {s : RunStoreState} (h : indexConsistent s)
    (run : RunDetail) (now : String) :
    indexConsistent (persistRun s run now).2 := by
  obtain ⟨-, hdocs, hidx, -, -⟩ := persistRun_spec s run now
  intro r hr
  rw [indexRuns, hidx] at hr
  rw [hdocs]
  rcases List.mem_append.mp (mem_sortRunsNewestFirst.mp hr) with hmem | hmem
  · obtain ⟨hin, hne⟩ := List.mem_filter.mp hmem
    have hne' : r.run_id ≠ run.run_id := by simpa using hne
    obtain ⟨d, hd, hrec⟩ := h r hin
    exact ⟨d, by rw [assocFind_set_ne _ _ _ _ hne']; exact hd, hrec⟩
  · have hr' : r = toRunRecord { run with last_updated_at := now } := by
      simpa using hmem
    subst hr'
    exact ⟨{ run with last_updated_at := now }, assocFind_set_self _ _ _, rfl⟩

theorem indexConsistent_createRun {s : RunStoreState} (h : indexConsistent s)
    (runId input now : String) :
    indexConsistent (createRun s runId input now).2 := by
  obtain ⟨hid, hdocs, hidx⟩ := createRun_spec s runId input now
  intro r hr
  rw [indexRuns, hidx] at hr
  rw [hdocs]
  rcases List.mem_append.mp (mem_sortRunsNewestFirst.mp hr) with hmem | hmem
  · obtain ⟨hin, hne⟩ := List.mem_filter.mp hmem
    have hne' : r.run_id ≠ runId := by simpa using hne
    obtain ⟨d, hd, hrec⟩ := h r hin
    exact ⟨d, by rw [assocFind_set_ne _ _ _ _ hne']; exact hd, hrec⟩
  · have hr' : r = toRunRecord (createRun s runId input now).1 := by simpa using hmem
    subst hr'
    have : (toRunRecord (createRun s runId input now).1).run_id = runId := hid
    rw [this]
    exact ⟨(createRun s runId input now).1, assocFind_set_self _ _ _, rfl⟩

theorem indexConsistent_execCmd {s : RunStoreState} (h : indexConsistent s)
    (cmd : StoreCmd) : indexConsistent (execCmd s cmd) := by
  cases cmd with
  | create runId input now => exact indexConsistent_createRun h runId input now
  | update runId patch now =>
    show indexConsistent (updateRun s runId patch now).2
    unfold updateRun
    cases hg : getRun s runId with
    | error e => exact h
    | ok existing =>
      simpa using indexConsistent_persistRun h (applyRunPatch existing patch now) now

theorem indexConsistent_execCmds (cmds : List StoreCmd) :
    ∀ {s : RunStoreState}, indexConsistent s → indexConsistent (execCmds s cmds) := by
  induction cmds with
  | nil => intro s h; exact h
  | cons c t ih =>
    intro s h
    exact ih (indexConsistent_execCmd h c)

/-- The code's transition table (`assertCanMoveExecution`) coincides with the
specification's six-pair enumeration. -/
theorem allowedTransition_eq_claim (src dst : RunExecutionStatus) :
    allowedTransition src dst = decide ((src, dst) ∈ claimLegalPairs) := by
  cases src <;> cases dst <;> decide

theorem applyExecutionPatch_spec (cur : RunExecution) (patch : UpdateExecutionPatch)
    (now : String) :
    (applyExecutionPatch cur patch now).status = patch.status ∧
    (applyExecutionPatch cur patch now).started_at =
      (if patch.status = .running then
        (match cur.started_at with | some t => some t | none => some now)
      else cur.started_at) ∧
    (applyExecutionPatch cur patch now).completed_at =
      (if patch.status = .succeeded ∨ patch.status = .failed then some now
       else cur.completed_at) ∧
    (patch.status ≠ .failed → (applyExecutionPatch cur patch now).error_message = none) := by
  cases hst : patch.status <;> simp [applyExecutionPatch, hst]

/-- The success path of `updateExecution`, expressed through `persistRun`. -/
theorem updateExecution_ok (s : RunStoreState) (runId : String)
    (patch : UpdateExecutionPatch) (now : String) (run : RunDetail)
    (cur : RunExecution)
    (hrun : getRun s runId = .ok run) (hexec : run.execution = some cur)
    (hlegal : allowedTransition cur.status patch.status = true) :
    updateExecution s runId patch now =
      ((.ok (persistRun s
          { run with execution := some (applyExecutionPatch cur patch now) } now).1),
        (persistRun s
          { run with execution := some (applyExecutionPatch cur patch now) } now).2) := by
  simp [updateExecution, hrun, hexec, hlegal]

/-- C1: for every execution-status pair `(from, to)` outside the six legal
transitions (in particular any transition out of `succeeded` or `failed`),
`updateExecution` on a run whose execution has status `from`, given a patch
requesting status `to`, returns `InvalidTransition` and leaves the entire
stored state (the run document included) unchanged. -/
theorem updateExecution_illegal_rejected (s : RunStoreState) (runId : String)
    (patch : UpdateExecutionPatch) (now : String) (run : RunDetail)
    (e : RunExecution)
    (hrun : getRun s runId = .ok run)
    (hexec : run.execution = some e)
    (hnot : (e.status, patch.status) ∉ claimLegalPairs) :
    updateExecution s runId patch now =
      (.error (.invalidTransition e.status patch.status), s) := by
  have htable : allowedTransition e.status patch.status = false := by
    rw [allowedTransition_eq_claim]
    simpa using hnot
  simp [updateExecution, hrun, hexec, htable]

/-- C1 witness: `succeeded → queued` is rejected on the sample state. -/
theorem updateExecution_illegal_rejected_witness :
    updateExecution sampleState "r1" { status := .queued } "2026-01-02T00:00:00.000Z" =
      (.error (.invalidTransition .succeeded .queued), sampleState) :=
  updateExecution_illegal_rejected sampleState "r1" { status := .queued }
    "2026-01-02T00:00:00.000Z" sampleRun sampleExec (by rfl) (by rfl) (by decide)

/-- C4: `updateExecution` raises `Conflict` when the run has no execution; on
a legal transition it persists the merged execution, whose `started_at` is
set the first time the status becomes running and never changes once set,
whose `completed_at` is set exactly when the status becomes succeeded or
failed, and whose `error_message` is removed whenever the new status is not
failed (so a stored execution carries `error_message` only when failed). -/
theorem updateExecution_lifecycle_fields :
    (∀ (s : RunStoreState) (runId : String) (patch : UpdateExecutionPatch)
        (now : String) (run : RunDetail),
      getRun s runId = .ok run → run.execution = none →
      updateExecution s runId patch now =
        (.error (.conflict "Execution has not been created for this run."), s)) ∧
    (∀ (s : RunStoreState) (runId : String) (patch : UpdateExecutionPatch)
        (now : String) (run : RunDetail) (cur : RunExecution),
      getRun s runId = .ok run → run.run_id = runId →
      run.execution = some cur →
      allowedTransition cur.status patch.status = true →
      (updateExecution s runId patch now).1 =
        .ok { run with execution := some (applyExecutionPatch cur patch now),
                       last_updated_at := now } ∧
      assocFind (updateExecution s runId patch now).2.docs runId =
        some { run with execution := some (applyExecutionPatch cur patch now),
                        last_updated_at := now }) ∧
    (∀ (cur : RunExecution) (patch : UpdateExecutionPatch) (now : String),
      (applyExecutionPatch cur patch now).status = patch.status ∧
      (patch.status = .running → cur.started_at = none →
        (applyExecutionPatch cur patch now).started_at = some now) ∧
      (cur.started_at.isSome = true →
        (applyExecutionPatch cur patch now).started_at = cur.started_at) ∧
      (patch.status ≠ .running →
        (applyExecutionPatch cur patch now).started_at = cur.started_at) ∧
      ((patch.status = .succeeded ∨ patch.status = .failed) →
        (applyExecutionPatch cur patch now).completed_at = some now) ∧
      (¬(patch.status = .succeeded ∨ patch.status = .failed) →
        (applyExecutionPatch cur patch now).completed_at = cur.completed_at) ∧
      (patch.status ≠ .failed →
        (applyExecutionPatch cur patch now).error_message = none)) := by
  refine ⟨?_, ?_, ?_⟩
  · intro s runId patch now run hrun hnone
    simp [updateExecution, hrun, hnone]
  · intro s runId patch now run cur hrun hid hexec hlegal
    have hupd := updateExecution_ok s runId patch now run cur hrun hexec hlegal
    obtain ⟨h₁, h₂, -, -, -⟩ :=
      persistRun_spec s { run with execution := some (applyExecutionPatch cur patch now) } now
    constructor
    · rw [hupd]
      simp only []
      rw [h₁]
    · rw [hupd]
      simp only []
      rw [h₂]
      have : ({ run with execution := some (applyExecutionPatch cur patch now) } :
          RunDetail).run_id = runId := hid
      rw [this]
      rw [assocFind_set_self]
  · intro cur patch now
    obtain ⟨hst, hstart, hcomp, herr⟩ := applyExecutionPatch_spec cur patch now
    refine ⟨hst, ?_, ?_, ?_, ?_, ?_, herr⟩
    · intro h h0
      rw [hstart]
      simp [h, h0]
    · intro h
      rw [hstart]
      cases hsa : cur.started_at with
      | none => simp [hsa] at h
      | some t => by_cases hr : patch.status = .running <;> simp [hr]
    · intro h
      rw [hstart]
      simp [h]
    · intro h
      rw [hcomp]
      simp [h]
    · intro h
      rw [hcomp]
      simp [h]

/-- C4 witness: the conflict on a run without execution, and the
`completed_at` / `error_message` behaviour of a legal `running → succeeded`
update, on concrete data. -/
theorem updateExecution_lifecycle_fields_witness :
    updateExecution sampleState2 "r2" { status := .dispatched }
        "2026-01-02T00:00:00.000Z" =
      (.error (.conflict "Execution has not been created for this run."),
        sampleState2) ∧
    (updateExecution sampleState2 "r3" { status := .succeeded }
        "2026-01-02T00:00:00.000Z").1 =
      .ok { sampleRunRunning with
            execution := some (applyExecutionPatch sampleExecRunning
              { status := .succeeded } "2026-01-02T00:00:00.000Z")
            last_updated_at := "2026-01-02T00:00:00.000Z" } ∧
    (applyExecutionPatch sampleExecRunning { status := .succeeded }
        "2026-01-02T00:00:00.000Z").completed_at =
      some "2026-01-02T00:00:00.000Z" ∧
    (applyExecutionPatch sampleExecRunning { status := .succeeded }
        "2026-01-02T00:00:00.000Z").error_message = none :=
  ⟨updateExecution_lifecycle_fields.1 sampleState2 "r2" { status := .dispatched }
      "2026-01-02T00:00:00.000Z" sampleRunNoExec (by rfl) (by rfl),
   (updateExecution_lifecycle_fields.2.1 sampleState2 "r3" { status := .succeeded }
      "2026-01-02T00:00:00.000Z" sampleRunRunning sampleExecRunning
      (by rfl) (by rfl) (by rfl) (by decide)).1,
   (updateExecution_lifecycle_fields.2.2 sampleExecRunning { status := .succeeded }
      "2026-01-02T00:00:00.000Z").2.2.2.2.1 (Or.inl rfl),
   (updateExecution_lifecycle_fields.2.2 sampleExecRunning { status := .succeeded }
      "2026-01-02T00:00:00.000Z").2.2.2.2.2.2 (by decide)⟩

/-- C6: `failExecution` raises `Conflict` when the run has no execution,
raises `Conflict` when the existing execution is already terminal (succeeded
or failed) so the first recorded failure reason is never overwritten, and
otherwise behaves exactly as
`updateExecution(id, {status: failed, error_message: message})`. -/
theorem failExecution_guards :
    (∀ (s : RunStoreState) (runId msg now : String) (run : RunDetail),
      getRun s runId = .ok run → run.execution = none →
      failExecution s runId msg now =
        (.error (.conflict "Cannot fail execution before it exists."), s)) ∧
    (∀ (s : RunStoreState) (runId msg now : String) (run : RunDetail)
        (e : RunExecution),
      getRun s runId = .ok run → run.execution = some e →
      (e.status = .succeeded ∨ e.status = .failed) →
      failExecution s runId msg now =
        (.error (.conflict ("Execution is already terminal: " ++ statusText e.status)), s)) ∧
    (∀ (s : RunStoreState) (runId msg now : String) (run : RunDetail)
        (e : RunExecution),
      getRun s runId = .ok run → run.execution = some e →
      ¬ (e.status = .succeeded ∨ e.status = .failed) →
      failExecution s runId msg now =
        updateExecution s runId { status := .failed, error_message := some msg } now) := by
  refine ⟨?_, ?_, ?_⟩
  · intro s runId msg now run hrun hnone
    simp [failExecution, hrun, hnone]
  · intro s runId msg now run e hrun hexec hterm
    simp [failExecution, hrun, hexec, hterm]
  · intro s runId msg now run e hrun hexec hterm
    simp [failExecution, hrun, hexec, hterm]

/-- C6 witness: failing a run without execution, an already-succeeded
execution, and a running execution, on concrete data. -/
theorem failExecution_guards_witness :
    failExecution sampleState2 "r2" "boom" "2026-01-02T00:00:00.000Z" =
      (.error (.conflict "Cannot fail execution before it exists."), sampleState2) ∧
    failExecution sampleState "r1" "boom" "2026-01-02T00:00:00.000Z" =
      (.error (.conflict ("Execution is already terminal: " ++ statusText .succeeded)),
        sampleState) ∧
    failExecution sampleState2 "r3" "boom" "2026-01-02T00:00:00.000Z" =
      updateExecution sampleState2 "r3"
        { status := .failed, error_message := some "boom" } "2026-01-02T00:00:00.000Z" :=
  ⟨failExecution_guards.1 sampleState2 "r2" "boom" "2026-01-02T00:00:00.000Z"
      sampleRunNoExec (by rfl) (by rfl),
   failExecution_guards.2.1 sampleState "r1" "boom" "2026-01-02T00:00:00.000Z"
      sampleRun sampleExec (by rfl) (by rfl) (Or.inl rfl),
   failExecution_guards.2.2 sampleState2 "r3" "boom" "2026-01-02T00:00:00.000Z"
      sampleRunRunning sampleExecRunning (by rfl) (by rfl) (by decide)⟩

/-- C3: `queueExecution` raises `Conflict` when the run has no persisted
planning input, raises `Conflict` when the existing execution is still
active (queued, dispatched or running), and otherwise persists a completely
fresh queued execution — requested at the current time, on the given
workflow, on the caller-chosen backend, with every optional field absent —
replacing any prior terminal execution. -/
theorem queueExecution_spec :
    (∀ (s : RunStoreState) (runId : String) (wf : WorkflowName)
        (be : RunExecutionBackend) (now : String) (run : RunDetail),
      getRun s runId = .ok run → run.input = none →
      queueExecution s runId wf be now =
        (.error (.conflict "Cannot dispatch a run without persisted planner input."), s)) ∧
    (∀ (s : RunStoreState) (runId : String) (wf : WorkflowName)
        (be : RunExecutionBackend) (now : String) (run : RunDetail)
        (e : RunExecution),
      getRun s runId = .ok run → run.input.isNone = false →
      run.execution = some e → isActiveStatus e.status = true →
      queueExecution s runId wf be now =
        (.error (.conflict ("Run execution is already active: " ++ statusText e.status)), s)) ∧
    (∀ (s : RunStoreState) (runId : String) (wf : WorkflowName)
        (be : RunExecutionBackend) (now : String) (run : RunDetail),
      getRun s runId = .ok run → run.input.isNone = false →
      run.execution = none →
      (queueExecution s runId wf be now).1 =
        .ok { run with
              execution := some
                { backend := be
                  workflow_name := wf
                  status := .queued
                  github_run_id := none
                  github_run_url := none
                  requested_at := now
                  started_at := none
                  completed_at := none
                  error_message := none }
              last_updated_at := now }) ∧
    (∀ (s : RunStoreState) (runId : String) (wf : WorkflowName)
        (be : RunExecutionBackend) (now : String) (run : RunDetail)
        (e : RunExecution),
      getRun s runId = .ok run → run.input.isNone = false →
      run.execution = some e → isActiveStatus e.status = false →
      (queueExecution s runId wf be now).1 =
        .ok { run with
              execution := some
                { backend := be
                  workflow_name := wf
                  status := .queued
                  github_run_id := none
                  github_run_url := none
                  requested_at := now
                  started_at := none
                  completed_at := none
                  error_message := none }
              last_updated_at := now }) := by
  refine ⟨?_, ?_, ?_, ?_⟩
  · intro s runId wf be now run hrun hinp
    simp [queueExecution, hrun, hinp]
  · intro s runId wf be now run e hrun hinp hexec hact
    simp [queueExecution, hrun, hinp, hexec, hact]
  · intro s runId wf be now run hrun hinp hexec
    obtain ⟨h₁, -, -, -, -⟩ := persistRun_spec s
      { run with
        execution := some
          { backend := be, workflow_name := wf, status := .queued,
            github_run_id := none, github_run_url := none, requested_at := now,
            started_at := none, completed_at := none, error_message := none } } now
    simp only [queueExecution, hrun, hinp, hexec, Bool.false_eq_true, if_false]
    rw [h₁]
  · intro s runId wf be now run e hrun hinp hexec hact
    obtain ⟨h₁, -, -, -, -⟩ := persistRun_spec s
      { run with
        execution := some
          { backend := be, workflow_name := wf, status := .queued,
            github_run_id := none, github_run_url := none, requested_at := now,
            started_at := none, completed_at := none, error_message := none } } now
    simp only [queueExecution, hrun, hinp, hexec, hact, Bool.false_eq_true, if_false]
    rw [h₁]

/-- C3 witness: all four scenarios on concrete data, including the fresh
queued execution on the `local_process` backend after a terminal one. -/
theorem queueExecution_spec_witness :
    queueExecution sampleState3 "r4" .phase1Planner .local_process
        "2026-01-02T00:00:00.000Z" =
      (.error (.conflict "Cannot dispatch a run without persisted planner input."),
        sampleState3) ∧
    queueExecution sampleState3 "r3" .phase1Planner .local_process
        "2026-01-02T00:00:00.000Z" =
      (.error (.conflict ("Run execution is already active: " ++ statusText .running)),
        sampleState3) ∧
    (queueExecution sampleState3 "r2" .phase1Planner .local_process
        "2026-01-02T00:00:00.000Z").1 =
      .ok { sampleRunNoExec with
            execution := some
              { backend := .local_process
                workflow_name := .phase1Planner
                status := .queued
                github_run_id := none
                github_run_url := none
                requested_at := "2026-01-02T00:00:00.000Z"
                started_at := none
                completed_at := none
                error_message := none }
            last_updated_at := "2026-01-02T00:00:00.000Z" } ∧
    (queueExecution sampleState3 "r1" .phase1Planner .local_process
        "2026-01-02T00:00:00.000Z").1 =
      .ok { sampleRun with
            execution := some
              { backend := .local_process
                workflow_name := .phase1Planner
                status := .queued
                github_run_id := none
                github_run_url := none
                requested_at := "2026-01-02T00:00:00.000Z"
                started_at := none
                completed_at := none
                error_message := none }
            last_updated_at := "2026-01-02T00:00:00.000Z" } :=
  ⟨queueExecution_spec.1 sampleState3 "r4" .phase1Planner .local_process
      "2026-01-02T00:00:00.000Z" sampleRunNoInput (by rfl) (by rfl),
   queueExecution_spec.2.1 sampleState3 "r3" .phase1Planner .local_process
      "2026-01-02T00:00:00.000Z" sampleRunRunning sampleExecRunning
      (by rfl) (by rfl) (by rfl) (by decide),
   queueExecution_spec.2.2.1 sampleState3 "r2" .phase1Planner .local_process
      "2026-01-02T00:00:00.000Z" sampleRunNoExec (by rfl) (by rfl) (by rfl),
   queueExecution_spec.2.2.2 sampleState3 "r1" .phase1Planner .local_process
      "2026-01-02T00:00:00.000Z" sampleRun sampleExec
      (by rfl) (by rfl) (by rfl) (by decide)⟩

theorem assocFind_setIfAbsent_self (l : List (String × String)) (k v : String) :
    assocFind (stepTimestampsSetIfAbsent l k v) k =
      some ((assocFind l k).getD v) := by
  unfold stepTimestampsSetIfAbsent
  cases h : assocFind l k with
  | some t => simp [h]
  | none =>
    simp only [h, Option.getD_none]
    have hfind : l.find? (fun p => decide (p.1 = k)) = none := by
      have := h
      simpa [assocFind, Option.map_eq_none'] using this
    simp [assocFind, List.find?_append, hfind, List.find?]

/-- The success path of `updateRun`, expressed through `persistRun`. -/
theorem updateRun_ok (s : RunStoreState) (runId : String) (patch : UpdateRunPatch)
    (now : String) (run : RunDetail) (hrun : getRun s runId = .ok run) :
    updateRun s runId patch now =
      (.ok (runAfter run patch now),
        (persistRun s (applyRunPatch run patch now) now).2) := by
  have h := (persistRun_spec s (applyRunPatch run patch now) now).1
  simp [updateRun, hrun, runAfter, h]

/-- C5: `updateRun` on a non-existent run raises `RunNotFound`; on an
existing run, two consecutive `updateRun` calls with the same
`current_step` value leave that step's timestamp at the first call's value
(an existing `step_timestamps` entry is never overwritten), while
`last_updated_at` is refreshed by every successful call. -/
theorem updateRun_step_timestamps_write_once :
    (∀ (s : RunStoreState) (runId : String) (patch : UpdateRunPatch) (now : String),
      assocFind s.docs runId = none →
      updateRun s runId patch now = (.error (.runNotFound runId), s)) ∧
    (∀ (s : RunStoreState) (runId st : String) (patch : UpdateRunPatch)
        (now₁ now₂ : String) (run : RunDetail),
      getRun s runId = .ok run → run.run_id = runId →
      patch.current_step = some st →
      (updateRun s runId patch now₁).1 = .ok (runAfter run patch now₁) ∧
      (updateRun (updateRun s runId patch now₁).2 runId patch now₂).1 =
        .ok (runAfter (runAfter run patch now₁) patch now₂) ∧
      assocFind (runAfter run patch now₁).step_timestamps st =
        some ((assocFind run.step_timestamps st).getD now₁) ∧
      assocFind (runAfter (runAfter run patch now₁) patch now₂).step_timestamps st =
        some ((assocFind run.step_timestamps st).getD now₁) ∧
      (runAfter run patch now₁).last_updated_at = now₁ ∧
      (runAfter (runAfter run patch now₁) patch now₂).last_updated_at = now₂) := by
  constructor
  · intro s runId patch now h
    simp [updateRun, getRun, h]
  · intro s runId st patch now₁ now₂ run hrun hid hstep
    have hfirst := updateRun_ok s runId patch now₁ run hrun
    have hts₁ : (runAfter run patch now₁).step_timestamps =
        stepTimestampsSetIfAbsent run.step_timestamps st now₁ := by
      simp [runAfter, applyRunPatch, nextStepTimestamps, hstep]
    have hlook₁ : assocFind (runAfter run patch now₁).step_timestamps st =
        some ((assocFind run.step_timestamps st).getD now₁) := by
      rw [hts₁]; exact assocFind_setIfAbsent_self _ _ _
    have hdocs : (updateRun s runId patch now₁).2.docs =
        assocSet s.docs runId (runAfter run patch now₁) := by
      rw [hfirst]
      have h₂ : (persistRun s (applyRunPatch run patch now₁) now₁).2.docs =
          assocSet s.docs (applyRunPatch run patch now₁).run_id
            (runAfter run patch now₁) :=
        (persistRun_spec s (applyRunPatch run patch now₁) now₁).2.1
      have hid' : (applyRunPatch run patch now₁).run_id = runId := hid
      rw [h₂, hid']
    have hget₂ : getRun (updateRun s runId patch now₁).2 runId =
        .ok (runAfter run patch now₁) := by
      simp [getRun, hdocs, assocFind_set_self]
    have hsecond := updateRun_ok (updateRun s runId patch now₁).2 runId patch now₂
      (runAfter run patch now₁) hget₂
    have hts₂ : (runAfter (runAfter run patch now₁) patch now₂).step_timestamps =
        stepTimestampsSetIfAbsent (runAfter run patch now₁).step_timestamps st now₂ := by
      simp [runAfter, applyRunPatch, nextStepTimestamps, hstep]
    have hkeep : stepTimestampsSetIfAbsent (runAfter run patch now₁).step_timestamps st now₂ =
        (runAfter run patch now₁).step_timestamps := by
      unfold stepTimestampsSetIfAbsent
      rw [hlook₁]
    refine ⟨by rw [hfirst], by rw [hsecond], hlook₁, ?_, rfl, rfl⟩
    rw [hts₂, hkeep, hlook₁]

/-- C5 witness: a missing run raises `RunNotFound`, and two updates with
step `"parse"` on the same run keep the first timestamp while refreshing
`last_updated_at`, on concrete data. -/
theorem updateRun_step_timestamps_write_once_witness :
    updateRun sampleState2 "zz" { current_step := some "parse" }
        "2026-01-02T00:00:00.000Z" =
      (.error (.runNotFound "zz"), sampleState2) ∧
    ((updateRun sampleState2 "r2" { current_step := some "parse" }
        "2026-01-02T00:00:00.000Z").1 =
      .ok (runAfter sampleRunNoExec { current_step := some "parse" }
        "2026-01-02T00:00:00.000Z") ∧
    (updateRun (updateRun sampleState2 "r2" { current_step := some "parse" }
        "2026-01-02T00:00:00.000Z").2 "r2" { current_step := some "parse" }
        "2026-01-03T00:00:00.000Z").1 =
      .ok (runAfter (runAfter sampleRunNoExec { current_step := some "parse" }
          "2026-01-02T00:00:00.000Z") { current_step := some "parse" }
        "2026-01-03T00:00:00.000Z") ∧
    assocFind (runAfter sampleRunNoExec { current_step := some "parse" }
        "2026-01-02T00:00:00.000Z").step_timestamps "parse" =
      some ((assocFind sampleRunNoExec.step_timestamps "parse").getD
        "2026-01-02T00:00:00.000Z") ∧
    assocFind (runAfter (runAfter sampleRunNoExec { current_step := some "parse" }
          "2026-01-02T00:00:00.000Z") { current_step := some "parse" }
        "2026-01-03T00:00:00.000Z").step_timestamps "parse" =
      some ((assocFind sampleRunNoExec.step_timestamps "parse").getD
        "2026-01-02T00:00:00.000Z") ∧
    (runAfter sampleRunNoExec { current_step := some "parse" }
        "2026-01-02T00:00:00.000Z").last_updated_at = "2026-01-02T00:00:00.000Z" ∧
    (runAfter (runAfter sampleRunNoExec { current_step := some "parse" }
          "2026-01-02T00:00:00.000Z") { current_step := some "parse" }
        "2026-01-03T00:00:00.000Z").last_updated_at = "2026-01-03T00:00:00.000Z") :=
  ⟨updateRun_step_timestamps_write_once.1 sampleState2 "zz"
      { current_step := some "parse" } "2026-01-02T00:00:00.000Z" (by rfl),
   updateRun_step_timestamps_write_once.2 sampleState2 "r2" "parse"
      { current_step := some "parse" } "2026-01-02T00:00:00.000Z"
      "2026-01-03T00:00:00.000Z" sampleRunNoExec (by rfl) (by rfl) (by rfl)⟩

theorem getRun_ok_iff (s : RunStoreState) (runId : String) (run : RunDetail) :
    getRun s runId = .ok run ↔ assocFind s.docs runId = some run := by
  unfold getRun
  cases hf : assocFind s.docs runId <;> simp

/-- C2: starting from an empty storage root, any sequence of `createRun` /
`updateRun` calls keeps the index consistent — every run id it lists has a
readable run document whose summary fields equal the listed entry — and
within each call the run document write precedes every runs-index write. -/
theorem createRun_updateRun_index_consistency :
    (∀ cmds : List StoreCmd, indexConsistent (execCmds emptyState cmds)) ∧
    (∀ (s : RunStoreState) (runId input now : String),
      (createRun s runId input now).2 =
        (createRunTrace s runId input now).foldl applyWrite s ∧
      (createRunTrace s runId input now).head? =
        some (.runDoc runId (initialRun runId input now)) ∧
      ∀ e ∈ (createRunTrace s runId input now).tail, isIndexWrite e) ∧
    (∀ (s : RunStoreState) (runId : String) (patch : UpdateRunPatch) (now : String),
      (updateRun s runId patch now).2 =
        (updateRunTrace s runId patch now).foldl applyWrite s ∧
      ∀ run : RunDetail, getRun s runId = .ok run →
        (updateRunTrace s runId patch now).head? =
          some (.runDoc (applyRunPatch run patch now).run_id
            { applyRunPatch run patch now with last_updated_at := now }) ∧
        ∀ e ∈ (updateRunTrace s runId patch now).tail, isIndexWrite e) := by
  refine ⟨?_, ?_, ?_⟩
  · intro cmds
    exact indexConsistent_execCmds cmds indexConsistent_empty
  · intro s runId input now
    exact ⟨createRun_eq_foldl s runId input now,
      (createRunTrace_docFirst s runId input now).1,
      (createRunTrace_docFirst s runId input now).2⟩
  · intro s runId patch now
    refine ⟨updateRun_eq_foldl s runId patch now, ?_⟩
    intro run hrun
    have h := persistRunTrace_docFirst s (applyRunPatch run patch now) now
    constructor
    · show (updateRunTrace s runId patch now).head? = _
      unfold updateRunTrace
      rw [hrun]
      exact h.1
    · show ∀ e ∈ (updateRunTrace s runId patch now).tail, isIndexWrite e
      unfold updateRunTrace
      rw [hrun]
      exact h.2

/-- C2 witness: index consistency after a concrete create-then-update
sequence, and the write order of a concrete `createRun` call. -/
theorem createRun_updateRun_index_consistency_witness :
    indexConsistent (execCmds emptyState
      [.create "r1" "prd" "2026-01-01T00:00:00.000Z",
       .update "r1" { status := some "parsed", current_step := some "parse" }
         "2026-01-01T00:05:00.000Z"]) ∧
    (createRunTrace emptyState "r1" "prd" "2026-01-01T00:00:00.000Z").head? =
      some (.runDoc "r1" (initialRun "r1" "prd" "2026-01-01T00:00:00.000Z")) ∧
    (createRun emptyState "r1" "prd" "2026-01-01T00:00:00.000Z").2 =
      (createRunTrace emptyState "r1" "prd" "2026-01-01T00:00:00.000Z").foldl
        applyWrite emptyState :=
  ⟨createRun_updateRun_index_consistency.1
      [.create "r1" "prd" "2026-01-01T00:00:00.000Z",
       .update "r1" { status := some "parsed", current_step := some "parse" }
         "2026-01-01T00:05:00.000Z"],
   (createRun_updateRun_index_consistency.2.1 emptyState "r1" "prd"
      "2026-01-01T00:00:00.000Z").2.1,
   (createRun_updateRun_index_consistency.2.1 emptyState "r1" "prd"
      "2026-01-01T00:00:00.000Z").1⟩

theorem assocSet_set_self {κ α : Type} [DecidableEq κ] (l : List (κ × α))
    (k : κ) (a b : α) : assocSet (assocSet l k a) k b = assocSet l k b := by
  simp only [assocSet, List.filter_cons]
  rw [if_neg (by simp)]
  congr 1
  rw [List.filter_filter]
  simp

theorem manifestFile_update_bodies (s : RunStoreState)
    (b : List ((String × String) × String)) (runId : String) :
    manifestFile { s with bodies := b } runId = manifestFile s runId := rfl

/-- The full effect of a successful `writeArtifact` call. -/
theorem writeArtifact_ok (hash js : String → String) (s : RunStoreState)
    (runId name payload : String) (ct : ContentType) (now : String)
    (run : RunDetail) (hrun : getRun s runId = .ok run) :
    writeArtifact hash js s runId name payload ct now =
      (.ok (artifactMeta hash js name payload ct now),
       { s with
         bodies := assocSet s.bodies (runId, artifactFilename name ct)
           (artifactText js ct payload)
         manifests := assocSet s.manifests runId (.valid (sortArtifactsNewestFirst
           ((manifestEntries s runId).filter (fun a => decide (a.name ≠ name)) ++
             [artifactMeta hash js name payload ct now]))) }) := by
  cases hm : manifestFile s runId <;>
    simp only [writeArtifact, hrun, readOrInitArtifactsIndex, manifestEntries,
      artifactMeta, manifestFile_update_bodies, hm, assocSet_set_self]

/-- C7: writing an artifact twice under the same name (same content type,
any payloads) succeeds both times, derives the same name-derived filename,
and leaves exactly one manifest entry under that name — the second call's
metadata, whose content type, hash and timestamp reflect the latest
payload. -/
theorem writeArtifact_upsert_idempotent (hash js : String → String)
    (s : RunStoreState) (runId name p₁ p₂ : String) (ct : ContentType)
    (now₁ now₂ : String) (run : RunDetail) (hrun : getRun s runId = .ok run) :
    (writeArtifact hash js s runId name p₁ ct now₁).1 =
      .ok (artifactMeta hash js name p₁ ct now₁) ∧
    (writeArtifact hash js (writeArtifact hash js s runId name p₁ ct now₁).2
        runId name p₂ ct now₂).1 = .ok (artifactMeta hash js name p₂ ct now₂) ∧
    (artifactMeta hash js name p₁ ct now₁).filename =
      (artifactMeta hash js name p₂ ct now₂).filename ∧
    (artifactMeta hash js name p₂ ct now₂).content_type = ct ∧
    (artifactMeta hash js name p₂ ct now₂).created_at = now₂ ∧
    (artifactMeta hash js name p₂ ct now₂).sha256 = hash (artifactText js ct p₂) ∧
    manifestFile (writeArtifact hash js (writeArtifact hash js s runId name p₁
        ct now₁).2 runId name p₂ ct now₂).2 runId =
      .valid (manifestEntries (writeArtifact hash js (writeArtifact hash js s runId
        name p₁ ct now₁).2 runId name p₂ ct now₂).2 runId) ∧
    (manifestEntries (writeArtifact hash js (writeArtifact hash js s runId name p₁
        ct now₁).2 runId name p₂ ct now₂).2 runId).countP
      (fun a => decide (a.name = name)) = 1 ∧
    artifactMeta hash js name p₂ ct now₂ ∈
      manifestEntries (writeArtifact hash js (writeArtifact hash js s runId name p₁
        ct now₁).2 runId name p₂ ct now₂).2 runId ∧
    ∀ a ∈ manifestEntries (writeArtifact hash js (writeArtifact hash js s runId
        name p₁ ct now₁).2 runId name p₂ ct now₂).2 runId,
      a.name = name → a = artifactMeta hash js name p₂ ct now₂ := by
  have h₁ := writeArtifact_ok hash js s runId name p₁ ct now₁ run hrun
  have hrun₁ : getRun (writeArtifact hash js s runId name p₁ ct now₁).2 runId =
      .ok run := by
    rw [h₁]; exact hrun
  have h₂ := writeArtifact_ok hash js (writeArtifact hash js s runId name p₁ ct
    now₁).2 runId name p₂ ct now₂ run hrun₁
  have hmE : manifestEntries (writeArtifact hash js (writeArtifact hash js s runId
      name p₁ ct now₁).2 runId name p₂ ct now₂).2 runId =
      sortArtifactsNewestFirst
        ((manifestEntries (writeArtifact hash js s runId name p₁ ct now₁).2
            runId).filter (fun a => decide (a.name ≠ name)) ++
          [artifactMeta hash js name p₂ ct now₂]) := by
    rw [h₂]
    simp [manifestEntries, manifestFile, assocFind_set_self]
  have hmF : manifestFile (writeArtifact hash js (writeArtifact hash js s runId
      name p₁ ct now₁).2 runId name p₂ ct now₂).2 runId =
      .valid (sortArtifactsNewestFirst
        ((manifestEntries (writeArtifact hash js s runId name p₁ ct now₁).2
            runId).filter (fun a => decide (a.name ≠ name)) ++
          [artifactMeta hash js name p₂ ct now₂])) := by
    rw [h₂]
    simp [manifestFile, assocFind_set_self]
  refine ⟨by rw [h₁], by rw [h₂], rfl, rfl, rfl, rfl, ?_, ?_, ?_, ?_⟩
  · rw [hmF, hmE]
  · rw [hmE]
    rw [List.Perm.countP_eq _ (sortArtifactsNewestFirst_perm _)]
    rw [List.countP_append]
    have hz : ((manifestEntries (writeArtifact hash js s runId name p₁ ct now₁).2
        runId).filter (fun a => decide (a.name ≠ name))).countP
        (fun a => decide (a.name = name)) = 0 := by
      rw [List.countP_eq_zero]
      intro a ha
      have := (List.mem_filter.mp ha).2
      simp only [decide_eq_true_eq] at this
      simp [this]
    rw [hz]
    simp [artifactMeta]
  · rw [hmE]
    exact mem_sortArtifactsNewestFirst.mpr
      (List.mem_append_right _ (List.mem_singleton_self _))
  · rw [hmE]
    intro a ha hname
    rcases List.mem_append.mp (mem_sortArtifactsNewestFirst.mp ha) with h | h
    · have := (List.mem_filter.mp h).2
      simp only [decide_eq_true_eq] at this
      exact absurd hname this
    · exact List.mem_singleton.mp h

/-- C7 witness: two JSON writes under the name `"architecture pack"` on a
concrete run, with identity hash and stringifier, leave exactly one entry
with the latest metadata and the same filename. -/
theorem writeArtifact_upsert_idempotent_witness :
    (writeArtifact (fun t => t) (fun t => t) sampleState2 "r2" "architecture pack"
        "p1" .applicationJson "2026-01-02T00:00:00.000Z").1 =
      .ok (artifactMeta (fun t => t) (fun t => t) "architecture pack" "p1"
        .applicationJson "2026-01-02T00:00:00.000Z") ∧
    (artifactMeta (fun t => t) (fun t => t) "architecture pack" "p1"
        .applicationJson "2026-01-02T00:00:00.000Z").filename =
      (artifactMeta (fun t => t) (fun t => t) "architecture pack" "p2"
        .applicationJson "2026-01-03T00:00:00.000Z").filename ∧
    (manifestEntries (writeArtifact (fun t => t) (fun t => t)
        (writeArtifact (fun t => t) (fun t => t) sampleState2 "r2"
          "architecture pack" "p1" .applicationJson "2026-01-02T00:00:00.000Z").2
        "r2" "architecture pack" "p2" .applicationJson
        "2026-01-03T00:00:00.000Z").2 "r2").countP
      (fun a => decide (a.name = "architecture pack")) = 1 :=
  ⟨(writeArtifact_upsert_idempotent (fun t => t) (fun t => t) sampleState2 "r2"
      "architecture pack" "p1" "p2" .applicationJson "2026-01-02T00:00:00.000Z"
      "2026-01-03T00:00:00.000Z" sampleRunNoExec (by rfl)).1,
   (writeArtifact_upsert_idempotent (fun t => t) (fun t => t) sampleState2 "r2"
      "architecture pack" "p1" "p2" .applicationJson "2026-01-02T00:00:00.000Z"
      "2026-01-03T00:00:00.000Z" sampleRunNoExec (by rfl)).2.2.1,
   (writeArtifact_upsert_idempotent (fun t => t) (fun t => t) sampleState2 "r2"
      "architecture pack" "p1" "p2" .applicationJson "2026-01-02T00:00:00.000Z"
      "2026-01-03T00:00:00.000Z" sampleRunNoExec (by rfl)).2.2.2.2.2.2.2.1⟩

/-- C8: `listRuns` returns the summaries in the total order "created_at
descending, run id ascending"; the manifest stored by `writeArtifact` (and
returned by `listArtifacts`) is ordered "created_at descending, name
ascending"; and for entries with pairwise-distinct ids (resp. names) the
sorted output is determined by the multiset of entries alone, independent of
insertion order. -/
theorem listing_deterministic :
    (∀ s : RunStoreState, (listRuns s).1.Pairwise (fun a b => runLe a b = true)) ∧
    (∀ l₁ l₂ : List RunRecord, l₁.Perm l₂ → (l₁.map RunRecord.run_id).Nodup →
      sortRunsNewestFirst l₁ = sortRunsNewestFirst l₂) ∧
    (∀ (hash js : String → String) (s : RunStoreState) (runId name payload : String)
        (ct : ContentType) (now : String) (run : RunDetail),
      getRun s runId = .ok run →
      (listArtifacts (writeArtifact hash js s runId name payload ct now).2 runId).1 =
        .ok (manifestEntries (writeArtifact hash js s runId name payload ct now).2
          runId) ∧
      (manifestEntries (writeArtifact hash js s runId name payload ct now).2
        runId).Pairwise (fun a b => artifactLe a b = true)) ∧
    (∀ l₁ l₂ : List ArtifactMetadata, l₁.Perm l₂ →
      (l₁.map ArtifactMetadata.name).Nodup →
      sortArtifactsNewestFirst l₁ = sortArtifactsNewestFirst l₂) := by
  refine ⟨?_, ?_, ?_, ?_⟩
  · intro s
    exact sortRunsNewestFirst_sorted (readOrInitIndex s).1
  · intro l₁ l₂ hp hnd
    apply eq_of_perm_of_sortedLe runLe
      ((sortRunsNewestFirst_perm l₁).trans
        (hp.trans (sortRunsNewestFirst_perm l₂).symm))
      (sortRunsNewestFirst_sorted l₁) (sortRunsNewestFirst_sorted l₂)
    intro a ha b hb hab hba
    exact List.inj_on_of_nodup_map hnd (mem_sortRunsNewestFirst.mp ha)
      (mem_sortRunsNewestFirst.mp hb)
      (newestFirstLe_keys RunRecord.created_at RunRecord.run_id a b hab hba).2
  · intro hash js s runId name payload ct now run hrun
    have hw := writeArtifact_ok hash js s runId name payload ct now run hrun
    have hrun' : getRun (writeArtifact hash js s runId name payload ct now).2
        runId = .ok run := by
      rw [hw]; exact hrun
    have hfind : assocFind s.docs runId = some run := (getRun_ok_iff s runId run).mp hrun
    have hmE : manifestEntries (writeArtifact hash js s runId name payload ct
        now).2 runId = sortArtifactsNewestFirst
        ((manifestEntries s runId).filter (fun a => decide (a.name ≠ name)) ++
          [artifactMeta hash js name payload ct now]) := by
      rw [hw]
      simp [manifestEntries, manifestFile, assocFind_set_self]
    constructor
    · have hmF : manifestFile (writeArtifact hash js s runId name payload ct
          now).2 runId = .valid (manifestEntries (writeArtifact hash js s runId
          name payload ct now).2 runId) := by
        rw [hmE, hw]
        simp [manifestFile, assocFind_set_self]
      simp only [listArtifacts, hrun', readOrInitArtifactsIndex, hmF]
    · rw [hmE]
      exact sortArtifactsNewestFirst_sorted _
  · intro l₁ l₂ hp hnd
    apply eq_of_perm_of_sortedLe artifactLe
      ((sortArtifactsNewestFirst_perm l₁).trans
        (hp.trans (sortArtifactsNewestFirst_perm l₂).symm))
      (sortArtifactsNewestFirst_sorted l₁) (sortArtifactsNewestFirst_sorted l₂)
    intro a ha b hb hab hba
    exact List.inj_on_of_nodup_map hnd (mem_sortArtifactsNewestFirst.mp ha)
      (mem_sortArtifactsNewestFirst.mp hb)
      (newestFirstLe_keys ArtifactMetadata.created_at ArtifactMetadata.name
        a b hab hba).2

/-- C8 witness: the sorted listing of a concrete state is ordered, and the
two insertion orders of two tied summaries sort identically. -/
theorem listing_deterministic_witness :
    (listRuns sampleState).1.Pairwise (fun a b => runLe a b = true) ∧
    sortRunsNewestFirst [sampleRecordA, sampleRecordB] =
      sortRunsNewestFirst [sampleRecordB, sampleRecordA] :=
  ⟨listing_deterministic.1 sampleState,
   listing_deterministic.2.1 [sampleRecordA, sampleRecordB]
     [sampleRecordB, sampleRecordA] (List.Perm.swap _ _ _) (by decide)⟩

/-- C10: when the runs index or an artifact manifest exists but fails
parsing/validation, every operation reading it silently overwrites the file
with a fresh empty index and proceeds as if it were empty, discarding the
previously recorded entries — no validation error is surfaced: `listRuns`
returns an empty listing, `createRun`/`updateRun` rebuild the index with
just the written run, `writeArtifact` rebuilds the manifest with just the
written entry, `listArtifacts` returns no entries, and `readArtifact`
reports the artifact as missing (a `Conflict`). -/
theorem corrupt_index_reinitialized :
    (∀ s : RunStoreState, s.indexFile = .corrupt →
      listRuns s = ([], { s with indexFile := .valid [] })) ∧
    (∀ (s : RunStoreState) (runId input now : String), s.indexFile = .corrupt →
      (createRun s runId input now).2.indexFile =
        .valid [toRunRecord (initialRun runId input now)]) ∧
    (∀ (s : RunStoreState) (runId : String) (patch : UpdateRunPatch) (now : String)
        (run : RunDetail), getRun s runId = .ok run → s.indexFile = .corrupt →
      (updateRun s runId patch now).1 = .ok (runAfter run patch now) ∧
      (updateRun s runId patch now).2.indexFile =
        .valid [toRunRecord (runAfter run patch now)]) ∧
    (∀ (hash js : String → String) (s : RunStoreState) (runId name payload : String)
        (ct : ContentType) (now : String) (run : RunDetail),
      getRun s runId = .ok run → manifestFile s runId = .corrupt →
      (writeArtifact hash js s runId name payload ct now).1 =
        .ok (artifactMeta hash js name payload ct now) ∧
      manifestFile (writeArtifact hash js s runId name payload ct now).2 runId =
        .valid [artifactMeta hash js name payload ct now]) ∧
    (∀ (s : RunStoreState) (runId : String) (run : RunDetail),
      getRun s runId = .ok run → manifestFile s runId = .corrupt →
      listArtifacts s runId =
        (.ok [], { s with manifests := assocSet s.manifests runId (.valid []) })) ∧
    (∀ (s : RunStoreState) (runId name : String) (run : RunDetail),
      getRun s runId = .ok run → manifestFile s runId = .corrupt →
      readArtifact s runId name =
        (.error (.conflict ("Artifact not found for run " ++ runId ++ ": " ++ name)),
          { s with manifests := assocSet s.manifests runId (.valid []) })) := by
  refine ⟨?_, ?_, ?_, ?_, ?_, ?_⟩
  · intro s h
    simp [listRuns, readOrInitIndex, h, sortRunsNewestFirst]
  · intro s runId input now h
    have := (createRun_spec s runId input now).2.2
    rw [this]
    have hidx : indexRuns s = [] := by simp [indexRuns, h]
    rw [hidx]
    simp [sortRunsNewestFirst, createRun, readOrInitIndex, h, initialRun]
  · intro s runId patch now run hrun h
    have hu := updateRun_ok s runId patch now run hrun
    constructor
    · rw [hu]
    · rw [hu]
      have := (persistRun_spec s (applyRunPatch run patch now) now).2.2.1
      rw [this]
      have hidx : indexRuns s = [] := by simp [indexRuns, h]
      rw [hidx]
      simp only [List.filter_nil, List.nil_append]
      rw [show ({ applyRunPatch run patch now with last_updated_at := now } :
        RunDetail) = runAfter run patch now from rfl]
      simp [sortRunsNewestFirst]
  · intro hash js s runId name payload ct now run hrun h
    have hw := writeArtifact_ok hash js s runId name payload ct now run hrun
    have hmE : manifestEntries s runId = [] := by
      simp [manifestEntries, h]
    constructor
    · rw [hw]
    · rw [hw]
      simp only [manifestFile]
      rw [hmE]
      simp [assocFind_set_self, sortArtifactsNewestFirst]
  · intro s runId run hrun h
    simp [listArtifacts, hrun, readOrInitArtifactsIndex, h]
  · intro s runId name run hrun h
    simp [readArtifact, hrun, readOrInitArtifactsIndex, h]

/-- C10 witness: all six operations on the corrupt concrete state. -/
theorem corrupt_index_reinitialized_witness :
    listRuns corruptState = ([], { corruptState with indexFile := .valid [] }) ∧
    (createRun corruptState "r9" "prd" "2026-01-02T00:00:00.000Z").2.indexFile =
      .valid [toRunRecord (initialRun "r9" "prd" "2026-01-02T00:00:00.000Z")] ∧
    (updateRun corruptState "r2" { current_step := some "parse" }
        "2026-01-02T00:00:00.000Z").2.indexFile =
      .valid [toRunRecord (runAfter sampleRunNoExec { current_step := some "parse" }
        "2026-01-02T00:00:00.000Z")] ∧
    manifestFile (writeArtifact (fun t => t) (fun t => t) corruptState "r2" "pack"
        "p" .applicationJson "2026-01-02T00:00:00.000Z").2 "r2" =
      .valid [artifactMeta (fun t => t) (fun t => t) "pack" "p" .applicationJson
        "2026-01-02T00:00:00.000Z"] ∧
    listArtifacts corruptState "r2" =
      (.ok [], { corruptState with
        manifests := assocSet corruptState.manifests "r2" (.valid []) }) ∧
    readArtifact corruptState "r2" "pack" =
      (.error (.conflict ("Artifact not found for run " ++ "r2" ++ ": " ++ "pack")),
        { corruptState with
          manifests := assocSet corruptState.manifests "r2" (.valid []) }) :=
  ⟨corrupt_index_reinitialized.1 corruptState (by rfl),
   corrupt_index_reinitialized.2.1 corruptState "r9" "prd"
     "2026-01-02T00:00:00.000Z" (by rfl),
   (corrupt_index_reinitialized.2.2.1 corruptState "r2"
     { current_step := some "parse" } "2026-01-02T00:00:00.000Z" sampleRunNoExec
     (by rfl) (by rfl)).2,
   (corrupt_index_reinitialized.2.2.2.1 (fun t => t) (fun t => t) corruptState
     "r2" "pack" "p" .applicationJson "2026-01-02T00:00:00.000Z" sampleRunNoExec
     (by rfl) (by rfl)).2,
   corrupt_index_reinitialized.2.2.2.2.1 corruptState "r2" sampleRunNoExec
     (by rfl) (by rfl),
   corrupt_index_reinitialized.2.2.2.2.2 corruptState "r2" "pack" sampleRunNoExec
     (by rfl) (by rfl)⟩

/-- C9 counterexample: on the fallback path (rename-over-existing failed),
the state after the unlink — the temporary file is written and the
(eventually successful) rename has not happened — has an *absent*
destination although the previous content `"old"` existed: the destination
neither holds the previous complete content nor "remains" absent. -/
theorem atomicWrite_crash_loses_old_content :
    (atomicWriteTrace { dest := some "old", tmp := none } "new" true)[3]? =
      some { dest := none, tmp := some "new" } ∧
    ({ dest := none, tmp := some "new" } : AtomicFs).dest ≠
      ({ dest := some "old", tmp := none } : AtomicFs).dest ∧
    ({ dest := some "old", tmp := none } : AtomicFs).dest ≠ none := by
  refine ⟨rfl, by decide, by decide⟩

/-- C9 (amended): at every crash point the destination holds the previous
complete content, the new complete content, or is absent — never a partial
document; the completed write leaves the new content; and on the ordinary
path (the rename does not fail with an `EEXIST`-class error) the destination
is exactly the previous content before the rename and the new content after
it, as the claim states. -/
theorem atomicWrite_crash_outcomes (s : AtomicFs) (contents : String)
    (renameFails : Bool) :
    (∀ u ∈ atomicWriteTrace s contents renameFails,
      u.dest = s.dest ∨ u.dest = none ∨ u.dest = some contents) ∧
    (atomicWriteTrace s contents renameFails).getLast? =
      some { dest := some contents, tmp := none } ∧
    (renameFails = false →
      atomicWriteTrace s contents renameFails =
        [s, { s with tmp := some contents },
          { dest := some contents, tmp := none }]) := by
  cases renameFails <;>
    refine ⟨?_, by simp [atomicWriteTrace], by simp [atomicWriteTrace]⟩ <;>
    · intro u hu
      simp only [atomicWriteTrace, Bool.false_eq_true, if_true, if_false,
        List.mem_cons, List.not_mem_nil, or_false] at hu
      rcases hu with rfl | rfl | rfl | rfl | rfl <;> simp

/-- C9 witness for the amended statement: the ordinary-path trace of a
concrete write, and the final state of the fallback-path trace. -/
theorem atomicWrite_crash_outcomes_witness :
    atomicWriteTrace { dest := some "old", tmp := none } "new" false =
      [{ dest := some "old", tmp := none },
        { dest := some "old", tmp := some "new" },
        { dest := some "new", tmp := none }] ∧
    (atomicWriteTrace { dest := some "old", tmp := none } "new" true).getLast? =
      some { dest := some "new", tmp := none } :=
  ⟨(atomicWrite_crash_outcomes { dest := some "old", tmp := none } "new"
      false).2.2 rfl,
   (atomicWrite_crash_outcomes { dest := some "old", tmp := none } "new"
      true).2.1⟩

end WSPass
